import Mathlib

/-!
Verification of the icon asset-generation pipeline (`src/install.ts` and
`src/browser.js`) against its specification.  Strings are embedded as
`List Char`; directory listings, `fs.stat` probes and the destination
directory are embedded as explicit data so that the filter, the name
deriver, the directory-state guard and the transform pipeline become pure
Lean functions mirroring the source line by line.
-/

namespace Symbols

/-- Character list of a string literal (JS strings are modelled as `List Char`). -/
def chars (s : String) : List Char := s.toList

/-- Regex character class `a-z` (code points 97–122), as in `[^a-zA-Z0-9]`. -/
def isLowerAlpha (c : Char) : Bool := 97 ≤ c.toNat && c.toNat ≤ 122

/-- Regex character class `A-Z` (code points 65–90). -/
def isUpperAlpha (c : Char) : Bool := 65 ≤ c.toNat && c.toNat ≤ 90

/-- Regex character class `0-9` (code points 48–57). -/
def isDigitChar (c : Char) : Bool := 48 ≤ c.toNat && c.toNat ≤ 57

/-- Regex character class `A-Za-z`, used by `/^[A-Za-z]/.test(safeName)`. -/
def isAsciiLetter (c : Char) : Bool := isLowerAlpha c || isUpperAlpha c

/-- Regex character class `a-zA-Z0-9`, the complement of the separator class
in `base.split(/[^a-zA-Z0-9]+/)`. -/
def isAlnumChar (c : Char) : Bool := isAsciiLetter c || isDigitChar c

/-- JS `String.prototype.toUpperCase` restricted to ASCII: maps `a-z` to
`A-Z` and leaves every other character unchanged.  In the source it is only
ever applied (via `charAt(0).toUpperCase()`) to characters drawn from
`a-zA-Z0-9`, where this is exactly the JS behaviour. -/
def upperChar (c : Char) : Char :=
  if isLowerAlpha c then Char.ofNat (c.toNat - 32) else c

/-- ASCII lower-casing: maps `A-Z` to `a-z` and leaves everything else
unchanged; used to model the `i` flag of `/\.svg$/i`. -/
def lowerChar (c : Char) : Char :=
  if isUpperAlpha c then Char.ofNat (c.toNat + 32) else c

/-- The vector-graphic extension literal `".svg"`. -/
def svgExtChars : List Char := chars ".svg"

/-- One entry of a `fs.readdir(dir, { withFileTypes: true })` listing:
its `name` and whether `isFile()` holds (directories and special files
report `false`). -/
structure DirEntry where
  name : List Char
  isFile : Bool
deriving DecidableEq

/-- The filter predicate `(entry) => entry.isFile() && entry.name.endsWith('.svg')`
shared by `buildReactComponents` (install.ts line 53) and `loadIconNames`
(browser.js line 33).  JS `endsWith` compares case-sensitively. -/
def isSvgEntry (e : DirEntry) : Bool := e.isFile && svgExtChars.isSuffixOf e.name

/-- `entries.filter((entry) => entry.isFile() && entry.name.endsWith('.svg'))`. -/
def filterSvgEntries (entries : List DirEntry) : List DirEntry :=
  entries.filter isSvgEntry

/-- Whether `/\.svg$/i` matches the end of `s`: the last four characters,
lower-cased in ASCII, are `".svg"`. -/
def hasSvgSuffixCI (s : List Char) : Bool :=
  svgExtChars.isSuffixOf (s.map lowerChar)

/-- `fileName.replace(/\.svg$/i, '')` (install.ts line 124): drop a trailing
`".svg"` matched case-insensitively, otherwise return the name unchanged. -/
def stripSvgExt (s : List Char) : List Char :=
  if hasSvgSuffixCI s then s.take (s.length - 4) else s

/-- Accumulator worker for `base.split(/[^a-zA-Z0-9]+/).filter(Boolean)`:
collects the maximal runs of `a-zA-Z0-9` characters, which is exactly the
list of split segments after empty segments are discarded. -/
def splitAlnumAux : List Char → List Char → List (List Char)
  | acc, [] => if acc.isEmpty then [] else [acc.reverse]
  | acc, c :: cs =>
    if isAlnumChar c then splitAlnumAux (c :: acc) cs
    else if acc.isEmpty then splitAlnumAux [] cs
    else acc.reverse :: splitAlnumAux [] cs

/-- `base.split(/[^a-zA-Z0-9]+/).filter(Boolean)` (install.ts line 125). -/
def splitAlnum (s : List Char) : List (List Char) := splitAlnumAux [] s

/-- `part.charAt(0).toUpperCase() + part.slice(1)` (install.ts line 128). -/
def capitalizePart : List Char → List Char
  | [] => []
  | c :: cs => upperChar c :: cs

/-- The fixed token `'Icon'` used both as fallback and as affix. -/
def iconToken : List Char := chars "Icon"

/-- The capitalize-and-concatenate step (install.ts lines 127–129): the join
of the capitalized alphanumeric segments of the extension-stripped name. -/
def rawConcatName (fileName : List Char) : List Char :=
  ((splitAlnum (stripSvgExt fileName)).map capitalizePart).flatten

/-- `const safeName = name || 'Icon'` (install.ts line 131): the empty
string is falsy, so an empty concatenation is replaced by `'Icon'`. -/
def safeName (fileName : List Char) : List Char :=
  if (rawConcatName fileName).isEmpty then iconToken else rawConcatName fileName

/-- `/^[A-Za-z]/.test(s)`: the string is non-empty and its first character
is an ASCII letter. -/
def startsWithLetter : List Char → Bool
  | [] => false
  | c :: _ => isAsciiLetter c

/-- `toComponentName` (install.ts lines 123–133). -/
def toComponentName (fileName : List Char) : List Char :=
  if startsWithLetter (safeName fileName) then safeName fileName ++ iconToken
  else iconToken ++ safeName fileName

/-- The component file extension `".tsx"` (install.ts line 86). -/
def tsxExtChars : List Char := chars ".tsx"

/-- `fs.writeFile` into the destination directory, modelled on an
association list of (file name, contents): a write replaces any file of the
same name. -/
def writeFile (dest : List (List Char × List Char)) (n content : List Char) :
    List (List Char × List Char) :=
  (n, content) :: dest.filter (fun q => q.1 != n)

/-- The write loop of `buildReactComponents` (install.ts lines 69–88):
for each SVG entry, read its content (`rd`), transform it (`tf`, standing
for the opaque `@svgr/core` `transform` collaborator) under the derived
component name, and write `<componentName>.tsx`. -/
def buildWrites (rd : List Char → List Char) (tf : List Char → List Char → List Char)
    (files : List DirEntry) (dest : List (List Char × List Char)) :
    List (List Char × List Char) :=
  files.foldl
    (fun d e =>
      writeFile d (toComponentName e.name ++ tsxExtChars)
        (tf (rd e.name) (toComponentName e.name)))
    dest

/-- `buildReactComponents` (install.ts lines 43–93), restricted to its
effect on the destination directory once the source directory check has
passed: if no entry passes the SVG filter the function returns early and the
destination is left unchanged; otherwise `fs.rm(componentsDir, { recursive:
true, force: true })` followed by `fs.mkdir` resets the destination to empty
and the write loop runs from that empty state. -/
def buildReactComponents (entries : List DirEntry) (rd : List Char → List Char)
    (tf : List Char → List Char → List Char) (dest : List (List Char × List Char)) :
    List (List Char × List Char) :=
  let svgFiles := filterSvgEntries entries
  if svgFiles.length = 0 then dest else buildWrites rd tf svgFiles []

/-- A Node.js filesystem error, identified by its `code` property
(e.g. `'ENOENT'`, `'EACCES'`). -/
structure FsError where
  code : List Char
deriving DecidableEq

/-- The part of a `fs.stat` result consulted by `detectSvgDir`:
`stats.isDirectory()` and `stats.isFile()`.  Both are `false` for special
files such as sockets and FIFOs. -/
structure FileStats where
  isDirectory : Bool
  isFile : Bool
deriving DecidableEq

/-- The three-way result of `detectSvgDir`. -/
inductive PathState
  | missing
  | directory
  | file
deriving DecidableEq

/-- The error code `'ENOENT'` tested by `detectSvgDir`'s catch clause. -/
def enoentCode : List Char := chars "ENOENT"

/-- `detectSvgDir` (install.ts lines 135–150), as a function of the probe
outcome of `await fs.stat(svgDir)`: a successful stat maps to `directory`,
`file`, or (for stats that are neither) `missing`; a failed stat maps to
`missing` when its code is `'ENOENT'` and is rethrown unchanged otherwise. -/
def detectSvgDir (probe : Except FsError FileStats) : Except FsError PathState :=
  match probe with
  | .ok stats =>
    if stats.isDirectory then .ok .directory
    else if stats.isFile then .ok .file
    else .ok .missing
  | .error e => if e.code = enoentCode then .ok .missing else .error e

/-- `relative(svgDir)`, the path reported in `ensureSvgIcons`'s error message. -/
def svgDirRel : List Char := chars "src/sf-symbols"

/-- The observable outcome of `ensureSvgIcons`: skip generation, abort with
the not-a-directory error naming the path, spawn the generator subprocess,
or propagate a probe error. -/
inductive EnsureOutcome
  | skipGeneration
  | fatalNotDirectory (p : List Char)
  | runGenerator
  | fatalProbe (e : FsError)
deriving DecidableEq

/-- `ensureSvgIcons` (install.ts lines 19–41), as a function of the stat
probe: on `directory` it logs and returns, on `file` it throws the error
naming `relative(svgDir)` before performing any mutation, on `missing` it
invokes the external generator subprocess; a probe error thrown out of
`detectSvgDir` propagates. -/
def ensureSvgIcons (probe : Except FsError FileStats) : EnsureOutcome :=
  match detectSvgDir probe with
  | .error e => .fatalProbe e
  | .ok .directory => .skipGeneration
  | .ok .file => .fatalNotDirectory svgDirRel
  | .ok .missing => .runGenerator

/-- Lower-case hexadecimal digit, as emitted by `JSON.stringify` for
control-character escapes. -/
def hexDigitChar (n : Nat) : Char :=
  if n < 10 then Char.ofNat (48 + n) else Char.ofNat (87 + n)

/-- The escaping `JSON.stringify` applies to one character of a string
literal: quote and backslash get a backslash escape, the named control
characters get their short escapes, other control characters get a
`\u00XX` escape, and everything else is emitted verbatim. -/
def jsonEscapeChar (c : Char) : List Char :=
  if c = '"' then ['\\', '"']
  else if c = '\\' then ['\\', '\\']
  else if c = '\x08' then ['\\', 'b']
  else if c = '\x09' then ['\\', 't']
  else if c = '\x0a' then ['\\', 'n']
  else if c = '\x0c' then ['\\', 'f']
  else if c = '\x0d' then ['\\', 'r']
  else if c.toNat < 32 then
    ['\\', 'u', '0', '0', hexDigitChar (c.toNat / 16), hexDigitChar (c.toNat % 16)]
  else [c]

/-- `JSON.stringify` of one string: a double-quoted, escaped literal. -/
def jsonQuoteString (s : List Char) : List Char :=
  '"' :: (s.map jsonEscapeChar).flatten ++ ['"']

/-- `JSON.stringify(iconNames)` for an array of strings: the quoted
elements joined by commas inside square brackets. -/
def jsonStringifyStrings (names : List (List Char)) : List Char :=
  '[' :: (List.intersperse (chars ",") (names.map jsonQuoteString)).flatten ++ [']']

/-- The six-character replacement text (backslash, `u`, `0`, `0`, `3`, `c`)
of `.replace(/</g, '\\u003c')` (browser.js line 39). -/
def ltEscapeChars : List Char := chars "\\u003c"

/-- Per-character action of the global replace: `<` becomes the
six-character escape, every other character is kept. -/
def escapeLtChar (c : Char) : List Char :=
  if c = '<' then ltEscapeChars else [c]

/-- `.replace(/</g, '\\u003c')`: every occurrence of `<` is replaced. -/
def escapeLt (s : List Char) : List Char := (s.map escapeLtChar).flatten

/-- `const safeJson = JSON.stringify(iconNames).replace(/</g, '\\u003c')`
(browser.js line 39). -/
def safeJson (names : List (List Char)) : List Char :=
  escapeLt (jsonStringifyStrings names)

/-- The directory listing of the spec's enumeration-filter scenario:
regular files `icon.svg`, `icon.SVG`, `readme.txt` and a subdirectory
named `icon.svg`. -/
def demoListing : List DirEntry :=
  [⟨chars "icon.svg", true⟩, ⟨chars "icon.SVG", true⟩,
   ⟨chars "readme.txt", true⟩, ⟨chars "icon.svg", false⟩]

/-- ASCII upper-casing keeps a character inside `a-zA-Z0-9`. -/
theorem isAlnumChar_upperChar {c : Char} (h : isAlnumChar c = true) :
    isAlnumChar (upperChar c) = true := by
  have key : ∀ n < 123, 97 ≤ n → isAlnumChar (Char.ofNat (n - 32)) = true := by decide
  unfold upperChar
  split
  · rename_i hl
    have hb : 97 ≤ c.toNat ∧ c.toNat ≤ 122 := by
      simpa [isLowerAlpha, Bool.and_eq_true, decide_eq_true_eq] using hl
    exact key c.toNat (by omega) hb.1
  · exact h

/-- Every segment produced by the splitter is non-empty and consists of
`a-zA-Z0-9` characters only. -/
theorem splitAlnumAux_parts (s : List Char) :
    ∀ acc : List Char, (∀ c ∈ acc, isAlnumChar c = true) →
      ∀ p ∈ splitAlnumAux acc s, p ≠ [] ∧ ∀ c ∈ p, isAlnumChar c = true := by
  induction s with
  | nil =>
    intro acc hacc p hp
    cases acc with
    | nil => simp [splitAlnumAux] at hp
    | cons a l =>
      simp only [splitAlnumAux, List.isEmpty_cons, Bool.false_eq_true,
        if_false, List.mem_singleton] at hp
      subst hp
      exact ⟨by simp, fun c hc => hacc c (List.mem_reverse.mp hc)⟩
  | cons c cs ih =>
    intro acc hacc p hp
    by_cases hc : isAlnumChar c = true
    · rw [splitAlnumAux, if_pos hc] at hp
      refine ih (c :: acc) ?_ p hp
      intro d hd
      rcases List.mem_cons.mp hd with rfl | hd
      · exact hc
      · exact hacc d hd
    · cases acc with
      | nil =>
        rw [splitAlnumAux, if_neg hc] at hp
        simp only [List.isEmpty_nil, if_true] at hp
        exact ih [] (by simp) p hp
      | cons a l =>
        rw [splitAlnumAux, if_neg hc] at hp
        simp only [List.isEmpty_cons, Bool.false_eq_true, if_false,
          List.mem_cons] at hp
        rcases hp with rfl | hp
        · exact ⟨by simp, fun d hd => hacc d (List.mem_reverse.mp hd)⟩
        · exact ih [] (by simp) p hp

/-- Every character of the capitalized concatenation is in `a-zA-Z0-9`. -/
theorem rawConcatName_alnum (fileName : List Char) :
    ∀ c ∈ rawConcatName fileName, isAlnumChar c = true := by
  intro c hc
  unfold rawConcatName at hc
  rw [List.mem_flatten] at hc
  obtain ⟨q, hq, hcq⟩ := hc
  rw [List.mem_map] at hq
  obtain ⟨p, hp, rfl⟩ := hq
  have hpart := splitAlnumAux_parts (stripSvgExt fileName) [] (by simp) p hp
  cases p with
  | nil => simp [capitalizePart] at hcq
  | cons a l =>
    simp only [capitalizePart, List.mem_cons] at hcq
    rcases hcq with rfl | hcl
    · exact isAlnumChar_upperChar (hpart.2 a (by simp))
    · exact hpart.2 c (by simp [hcl])

/-- Every character of `safeName` is in `a-zA-Z0-9`. -/
theorem safeName_alnum (fileName : List Char) :
    ∀ c ∈ safeName fileName, isAlnumChar c = true := by
  unfold safeName
  split
  · intro c hc
    revert hc
    revert c
    decide
  · exact rawConcatName_alnum fileName

/-- If no character of the input is in `a-zA-Z0-9`, the splitter yields no
segment at all. -/
theorem splitAlnumAux_nil_of_none (s : List Char)
    (h : ∀ c ∈ s, isAlnumChar c = false) : splitAlnumAux [] s = [] := by
  induction s with
  | nil => rfl
  | cons c cs ih =>
    have hc := h c (by simp)
    rw [splitAlnumAux, if_neg (by simp [hc])]
    simp only [List.isEmpty_nil, if_true]
    exact ih fun d hd => h d (by simp [hd])

/-- C1 (counterexample): the claim says a regular file named with any
capitalization of the `.svg` suffix is included by the enumerator, but the
source filter uses the case-sensitive `entry.name.endsWith('.svg')`: the
regular file `icon.SVG` matches the extension case-insensitively and is
nevertheless excluded. -/
theorem claim_C1_counterexample :
    hasSvgSuffixCI (chars "icon.SVG") = true ∧
    filterSvgEntries [⟨chars "icon.SVG", true⟩] = [] := by decide

/-- C1 (amended): the enumerator returns exactly the directory entries that
are regular files whose name ends with the `.svg` suffix matched
case-sensitively; in the spec's scenario listing (`icon.svg` file,
`icon.SVG` file, `readme.txt` file, `icon.svg` subdirectory) only the
lower-case `icon.svg` regular file is kept — the subdirectory, the
non-matching extension, and the upper-case variant are excluded. -/
theorem claim_C1_amended (entries : List DirEntry) (e : DirEntry) :
    (e ∈ filterSvgEntries entries ↔
      e ∈ entries ∧ e.isFile = true ∧ ∃ t, e.name = t ++ svgExtChars) ∧
    filterSvgEntries demoListing = [⟨chars "icon.svg", true⟩] := by
  refine ⟨?_, by decide⟩
  rw [filterSvgEntries, List.mem_filter]
  have hsuf : (svgExtChars.isSuffixOf e.name = true) ↔
      ∃ t, e.name = t ++ svgExtChars := by
    rw [List.isSuffixOf_iff_suffix]
    exact exists_congr fun t => eq_comm
  rw [isSvgEntry, Bool.and_eq_true, hsuf]

/-- C1 (witness): the included entry of the scenario, via the amended
characterization. -/
theorem claim_C1_witness :
    (⟨chars "icon.svg", true⟩ : DirEntry) ∈ filterSvgEntries demoListing :=
  (claim_C1_amended demoListing ⟨chars "icon.svg", true⟩).1.mpr
    ⟨by decide, rfl, chars "icon", by decide⟩

/-- C2: for every input filename the name deriver is total (it is a Lean
function) and always returns a string of the form `c :: cs` — hence
non-empty — whose first character `c` is an ASCII letter and whose
remaining characters are all alphanumeric. -/
theorem claim_C2 (fileName : List Char) :
    ∃ c cs, toComponentName fileName = c :: cs ∧ isAsciiLetter c = true ∧
      cs.all isAlnumChar = true := by
  cases h : startsWithLetter (safeName fileName) with
  | true =>
    rcases hsn : safeName fileName with _ | ⟨c, cs⟩
    · rw [hsn] at h
      simp [startsWithLetter] at h
    · refine ⟨c, cs ++ iconToken, ?_, ?_, ?_⟩
      · rw [toComponentName, if_pos h, hsn]
        rfl
      · rw [hsn] at h
        simpa [startsWithLetter] using h
      · rw [List.all_append, Bool.and_eq_true]
        refine ⟨?_, by decide⟩
        rw [List.all_eq_true]
        intro d hd
        exact safeName_alnum fileName d (by rw [hsn]; exact List.mem_cons_of_mem c hd)
  | false =>
    refine ⟨'I', chars "con" ++ safeName fileName, ?_, by decide, ?_⟩
    · rw [toComponentName, if_neg (by simp [h])]
      rfl
    · rw [List.all_append, Bool.and_eq_true]
      refine ⟨by decide, ?_⟩
      rw [List.all_eq_true]
      exact safeName_alnum fileName

/-- C3: whenever the extension-stripped base of the filename contains no
ASCII letter or digit, the concatenation of segments is empty, the fallback
token `'Icon'` is substituted, and the affixing step turns it into the one
fixed identifier `IconIcon` — never an empty or malformed string. -/
theorem claim_C3 (fileName : List Char)
    (h : ∀ c ∈ stripSvgExt fileName, isAlnumChar c = false) :
    toComponentName fileName = chars "IconIcon" := by
  have hsplit : splitAlnum (stripSvgExt fileName) = [] :=
    splitAlnumAux_nil_of_none _ h
  have hraw : rawConcatName fileName = [] := by
    rw [rawConcatName, hsplit]
    rfl
  have hsafe : safeName fileName = iconToken := by
    rw [safeName, hraw]
    rfl
  rw [toComponentName, hsafe]
  decide

/-- C3 (witness): `deriveName(".svg")` and `deriveName("___.svg")` both
yield the fixed fallback-derived identifier. -/
theorem claim_C3_witness :
    toComponentName (chars ".svg") = chars "IconIcon" ∧
    toComponentName (chars "___.svg") = chars "IconIcon" :=
  ⟨claim_C3 (chars ".svg") (by decide), claim_C3 (chars "___.svg") (by decide)⟩

/-- C4: the deriver appends the fixed token when the derived name (after
the fallback substitution of step 4) starts with an ASCII letter and
prepends it otherwise; concretely `circle.svg` derives its raw name
`Circle` suffixed with the token, while `1-circle.svg` derives its raw
name `1Circle` prefixed (not suffixed) with the token, and the latter
identifier starts with a letter. -/
theorem claim_C4 (fileName : List Char) :
    (startsWithLetter (safeName fileName) = true →
      toComponentName fileName = safeName fileName ++ iconToken) ∧
    (startsWithLetter (safeName fileName) = false →
      toComponentName fileName = iconToken ++ safeName fileName) ∧
    toComponentName (chars "circle.svg") =
      rawConcatName (chars "circle.svg") ++ iconToken ∧
    rawConcatName (chars "circle.svg") = chars "Circle" ∧
    toComponentName (chars "1-circle.svg") =
      iconToken ++ rawConcatName (chars "1-circle.svg") ∧
    rawConcatName (chars "1-circle.svg") = chars "1Circle" ∧
    startsWithLetter (toComponentName (chars "1-circle.svg")) = true := by
  refine ⟨?_, ?_, by decide, by decide, by decide, by decide, by decide⟩
  · intro h
    rw [toComponentName, if_pos h]
  · intro h
    rw [toComponentName, if_neg (by simp [h])]

/-- C4 (witness): the letter-leading case at `circle.svg`, by applying the
general dispatch rule. -/
theorem claim_C4_witness :
    toComponentName (chars "circle.svg") = safeName (chars "circle.svg") ++ iconToken :=
  (claim_C4 (chars "circle.svg")).1 (by decide)

/-- C5: the deriver collapses every maximal run of non-alphanumeric
characters identically — its output depends only on the list of maximal
alphanumeric runs of the extension-stripped name — so `a-b.svg`,
`a_b.svg` and `a.b.svg` all derive the same identifier. -/
theorem claim_C5 (f g : List Char)
    (h : splitAlnum (stripSvgExt f) = splitAlnum (stripSvgExt g)) :
    toComponentName f = toComponentName g ∧
    toComponentName (chars "a-b.svg") = toComponentName (chars "a_b.svg") ∧
    toComponentName (chars "a_b.svg") = toComponentName (chars "a.b.svg") := by
  refine ⟨?_, by decide, by decide⟩
  simp only [toComponentName, safeName, rawConcatName, h]

/-- C5 (witness): instantiating the collapse rule at `a-b.svg` and
`a_b.svg`, whose stripped bases split into the same segments. -/
theorem claim_C5_witness :
    toComponentName (chars "a-b.svg") = toComponentName (chars "a_b.svg") ∧
    toComponentName (chars "a_b.svg") = toComponentName (chars "a.b.svg") := by
  have h := claim_C5 (chars "a-b.svg") (chars "a_b.svg") (by decide)
  exact ⟨h.1, h.2.2⟩

/-- Every file present after the write loop either carries the derived name
of one of the processed entries or was already in the starting directory
state. -/
theorem mem_buildWrites (rd : List Char → List Char)
    (tf : List Char → List Char → List Char) (files : List DirEntry) :
    ∀ (dest : List (List Char × List Char)) (p : List Char × List Char),
      p ∈ buildWrites rd tf files dest →
      (∃ e ∈ files, p.1 = toComponentName e.name ++ tsxExtChars) ∨ p ∈ dest := by
  induction files with
  | nil =>
    intro dest p hp
    right
    simpa [buildWrites] using hp
  | cons e fs ih =>
    intro dest p hp
    simp only [buildWrites, List.foldl_cons] at hp
    rcases ih (writeFile dest (toComponentName e.name ++ tsxExtChars)
        (tf (rd e.name) (toComponentName e.name))) p (by simpa [buildWrites] using hp)
      with ⟨f, hf, hname⟩ | hmem
    · exact Or.inl ⟨f, List.mem_cons_of_mem e hf, hname⟩
    · rcases List.mem_cons.mp hmem with rfl | hmem
      · exact Or.inl ⟨e, List.mem_cons_self e fs, rfl⟩
      · exact Or.inr (List.mem_filter.mp hmem).1

/-- C6: when the enumeration yields no matching file the pipeline returns
early and the destination directory is left exactly as it was; when it
yields at least one matching file, the destination is rebuilt from empty
(its result does not depend on the prior destination state at all) and
every surviving file is the freshly written component of some currently
enumerated source file — no stale file survives. -/
theorem claim_C6 (entries : List DirEntry) (rd : List Char → List Char)
    (tf : List Char → List Char → List Char) (dest : List (List Char × List Char)) :
    (filterSvgEntries entries = [] →
      buildReactComponents entries rd tf dest = dest) ∧
    (filterSvgEntries entries ≠ [] →
      buildReactComponents entries rd tf dest =
        buildReactComponents entries rd tf []) ∧
    (filterSvgEntries entries ≠ [] →
      ∀ p ∈ buildReactComponents entries rd tf dest,
        ∃ e ∈ filterSvgEntries entries,
          p.1 = toComponentName e.name ++ tsxExtChars) := by
  refine ⟨?_, ?_, ?_⟩
  · intro h
    simp [buildReactComponents, h]
  · intro h
    have hlen : ¬ (filterSvgEntries entries).length = 0 := by
      simpa [List.length_eq_zero] using h
    simp only [buildReactComponents, if_neg hlen]
  · intro h p hp
    have hlen : ¬ (filterSvgEntries entries).length = 0 := by
      simpa [List.length_eq_zero] using h
    simp only [buildReactComponents, if_neg hlen] at hp
    rcases mem_buildWrites rd tf (filterSvgEntries entries) [] p hp with hgood | hin
    · exact hgood
    · simp at hin

/-- C6 (witness): with a stale file in the destination, a listing with no
matching file leaves the destination untouched, while a listing with one
matching file produces a result independent of the stale prior state, and
the stale file is gone from it. -/
theorem claim_C6_witness :
    buildReactComponents [⟨chars "readme.txt", true⟩] (fun n => n) (fun c _ => c)
        [(chars "Stale.tsx", chars "x")] = [(chars "Stale.tsx", chars "x")] ∧
    buildReactComponents [⟨chars "a.svg", true⟩] (fun n => n) (fun c _ => c)
        [(chars "Stale.tsx", chars "x")] =
      buildReactComponents [⟨chars "a.svg", true⟩] (fun n => n) (fun c _ => c) [] ∧
    (chars "Stale.tsx", chars "x") ∉
      buildReactComponents [⟨chars "a.svg", true⟩] (fun n => n) (fun c _ => c)
        [(chars "Stale.tsx", chars "x")] := by
  refine ⟨(claim_C6 _ _ _ _).1 (by decide), (claim_C6 _ _ _ _).2.1 (by decide), ?_⟩
  intro hmem
  obtain ⟨e, he, hname⟩ :=
    (claim_C6 [⟨chars "a.svg", true⟩] (fun n => n) (fun c _ => c)
      [(chars "Stale.tsx", chars "x")]).2.2 (by decide) _ hmem
  have hfilter : filterSvgEntries [⟨chars "a.svg", true⟩] =
      [(⟨chars "a.svg", true⟩ : DirEntry)] := by decide
  rw [hfilter, List.mem_singleton] at he
  subst he
  exact absurd hname (by decide)

/-- C7 (counterexample): the claim's "invoked if and only if the source
directory path is entirely absent" is false: a probe that finds the path
but reports it as neither a regular file nor a directory (a socket or
FIFO) also triggers the generator, although the path is not absent (the
stat probe did not fail with `ENOENT`). -/
theorem claim_C7_counterexample :
    ¬ ∀ probe : Except FsError FileStats,
        (ensureSvgIcons probe = EnsureOutcome.runGenerator ↔
          probe = Except.error ⟨enoentCode⟩) := by
  intro hall
  have h := (hall (Except.ok ⟨false, false⟩)).mp rfl
  exact Except.noConfusion h

/-- C7 (amended): the generator subprocess is invoked exactly when the
directory state guard classifies the path as `missing` (the path is absent,
or exists but is neither a regular file nor a directory); when the guard
reports `directory` the generation step is skipped, and when it reports
`file` the run fails fatally with the error naming the offending path,
before any mutation occurs. -/
theorem claim_C7_amended (probe : Except FsError FileStats) :
    (ensureSvgIcons probe = EnsureOutcome.runGenerator ↔
      detectSvgDir probe = Except.ok PathState.missing) ∧
    (ensureSvgIcons probe = EnsureOutcome.skipGeneration ↔
      detectSvgDir probe = Except.ok PathState.directory) ∧
    (ensureSvgIcons probe = EnsureOutcome.fatalNotDirectory svgDirRel ↔
      detectSvgDir probe = Except.ok PathState.file) := by
  rcases hd : detectSvgDir probe with e | st
  · simp [ensureSvgIcons, hd]
  · rcases st <;> simp [ensureSvgIcons, hd]

/-- C7 (witness): the three guard states at concrete probes — an `ENOENT`
failure runs the generator, a directory skips it, and a regular file
aborts naming the path. -/
theorem claim_C7_amended_witness :
    ensureSvgIcons (Except.error ⟨enoentCode⟩) = EnsureOutcome.runGenerator ∧
    ensureSvgIcons (Except.ok ⟨true, false⟩) = EnsureOutcome.skipGeneration ∧
    ensureSvgIcons (Except.ok ⟨false, true⟩) =
      EnsureOutcome.fatalNotDirectory svgDirRel :=
  ⟨(claim_C7_amended (Except.error ⟨enoentCode⟩)).1.mpr rfl,
   (claim_C7_amended (Except.ok ⟨true, false⟩)).2.1.mpr rfl,
   (claim_C7_amended (Except.ok ⟨false, true⟩)).2.2.mpr rfl⟩

/-- C8: the directory state guard maps an `ENOENT` probe failure to the
normal result `missing`, propagates every other probe error unmodified,
maps a directory to `directory`, and maps a regular file to `file`; its
result type admits exactly the three states. -/
theorem claim_C8 (e : FsError) (d : Bool) (hne : e.code ≠ enoentCode) :
    detectSvgDir (Except.error ⟨enoentCode⟩) = Except.ok PathState.missing ∧
    detectSvgDir (Except.error e) = Except.error e ∧
    detectSvgDir (Except.ok ⟨true, d⟩) = Except.ok PathState.directory ∧
    detectSvgDir (Except.ok ⟨false, true⟩) = Except.ok PathState.file := by
  refine ⟨rfl, ?_, rfl, rfl⟩
  simp only [detectSvgDir, if_neg hne]

/-- C8 (witness): instantiated at the `EACCES` error code, with the
directory probe reporting `isFile()` false. -/
theorem claim_C8_witness :
    detectSvgDir (Except.error ⟨enoentCode⟩) = Except.ok PathState.missing ∧
    detectSvgDir (Except.error ⟨chars "EACCES"⟩) =
      Except.error ⟨chars "EACCES"⟩ ∧
    detectSvgDir (Except.ok ⟨true, false⟩) = Except.ok PathState.directory ∧
    detectSvgDir (Except.ok ⟨false, true⟩) = Except.ok PathState.file :=
  claim_C8 ⟨chars "EACCES"⟩ false (by decide)

/-- C9: a probe that finds the path but reports it as neither a regular
file nor a directory (socket, FIFO, ...) is classified as `missing` by the
guard, so `ensureSvgIcons` invokes the generator as if the path were
absent. -/
theorem claim_C9 :
    detectSvgDir (Except.ok ⟨false, false⟩) = Except.ok PathState.missing ∧
    ensureSvgIcons (Except.ok ⟨false, false⟩) = EnsureOutcome.runGenerator :=
  ⟨rfl, rfl⟩

/-- No character produced by the per-character replace is `<`: the
replacement text contains none, and a kept character is one the replace
found different from `<`. -/
theorem escapeLtChar_no_lt (c d : Char) (h : d ∈ escapeLtChar c) : d ≠ '<' := by
  unfold escapeLtChar at h
  split at h
  · have he : ltEscapeChars = ['\\', 'u', '0', '0', '3', 'c'] := rfl
    rw [he] at h
    simp only [List.mem_cons, List.not_mem_nil, or_false] at h
    rcases h with rfl | rfl | rfl | rfl | rfl | rfl <;> decide
  · rename_i hne
    rw [List.mem_singleton] at h
    subst h
    exact hne

/-- C10: for every list of icon names, the embedded JSON literal has every
`<` replaced by the six-character escape, so the `safeJson` string embedded
in the browsing page contains no `<` at all — a filename containing markup
cannot terminate or alter the page's script block. -/
theorem claim_C10 (names : List (List Char)) :
    ('<' ∈ safeJson names) = False := by
  refine eq_false ?_
  intro hmem
  unfold safeJson escapeLt at hmem
  rw [List.mem_flatten] at hmem
  obtain ⟨q, hq, hcq⟩ := hmem
  rw [List.mem_map] at hq
  obtain ⟨c, _, rfl⟩ := hq
  exact escapeLtChar_no_lt c '<' hcq rfl

end Symbols
